import Mathlib

/-!
Shallow embedding of the FinDash finance dashboard's core logic:
the summary aggregator (app/api/[[...route]]/summary.ts together with
lib/utils.ts), the resource route handlers (accounts, categories,
transactions) and the CSV import mapper (the card and table
components).  Dates are modelled as integer day indices: the
handlers only ever compare dates, take day differences and shift by
whole days (date-fns differenceInDays / subDays / addDays), all of
which are exact on day indices for the midnight timestamps produced by
parsing "yyyy-MM-dd" strings.  Machine numbers are modelled as Int
(amounts are stored as integers in minor units) and Rat (percentage
arithmetic).
-/

namespace FinDash

/-- date-fns differenceInDays for midnight-aligned dates. -/
def differenceInDays (laterDate earlierDate : Int) : Int :=
  laterDate - earlierDate

/-- date-fns subDays. -/
def subDays (d : Int) (n : Int) : Int := d - n

/-- date-fns addDays. -/
def addDays (d : Int) (n : Int) : Int := d + n

/-- Row of the accounts table (src/db/schema: id is the PRIMARY KEY). -/
structure Account where
  id : String
  name : String
  userId : String
  deriving Repr, DecidableEq

/-- Row of the categories table (id is the PRIMARY KEY). -/
structure Category where
  id : String
  name : String
  userId : String
  deriving Repr, DecidableEq

/-- Row of the transactions table.  amount is the signed integer amount
in minor units (positive = income, negative = expense). -/
structure Transaction where
  id : String
  amount : Int
  date : Int
  payee : String
  notes : Option String
  accountId : String
  categoryId : Option String
  deriving Repr, DecidableEq

/-- The relational store the route handlers query. -/
structure DB where
  accounts : List Account
  categories : List Category
  transactions : List Transaction
  deriving Repr

/-- A handler outcome: either a success payload (the json data) or an
error response carrying the HTTP status and the error string. -/
abbrev ApiResult (α : Type) := Except (Nat × String) α

/-- HTTP status of a handler outcome (200 on the success path). -/
def respStatus {α : Type} : ApiResult α → Nat
  | .ok _ => 200
  | .error (s, _) => s

/-- lib/utils.ts calculatePercentageChange: previous = 0 maps to 0 when
current is also 0 and to 100 otherwise; otherwise the usual
(current - previous) / previous * 100. -/
def calculatePercentageChange (current previous : Rat) : Rat :=
  if previous = 0 then
    (if current = 0 then 0 else 100)
  else
    ((current - previous) / previous) * 100

/-- summary.ts: periodLength = differenceInDays(endDate, startDate) + 1. -/
def periodLength (startDate endDate : Int) : Int :=
  differenceInDays endDate startDate + 1

/-- summary.ts: lastPeriodStart = subDays(startDate, periodLength). -/
def lastPeriodStart (startDate endDate : Int) : Int :=
  subDays startDate (periodLength startDate endDate)

/-- summary.ts: lastPeriodEnd = subDays(endDate, periodLength). -/
def lastPeriodEnd (startDate endDate : Int) : Int :=
  subDays endDate (periodLength startDate endDate)

/-- The optional accountId query filter: the drizzle condition is
`undefined` (accepts every row) when no accountId was supplied, and
eq(transactions.accountId, accountId) otherwise. -/
def accountFilterOk (accountIdFilter : Option String) (t : Transaction) : Bool :=
  match accountIdFilter with
  | none => true
  | some i => decide (t.accountId = i)

/-- The rows a single transaction contributes to
innerJoin(accounts, eq(transactions.accountId, accounts.id)). -/
def joinOne (accountRows : List Account) (t : Transaction) :
    List (Transaction × Account) :=
  (accountRows.filter fun a => decide (t.accountId = a.id)).map fun a => (t, a)

/-- innerJoin(accounts, eq(transactions.accountId, accounts.id)): one
row per transaction/account pair whose keys agree. -/
def joinAcc (db : DB) : List (Transaction × Account) :=
  db.transactions.flatMap (joinOne db.accounts)

/-- The where-clause shared by the summary and transactions queries:
optional accountId filter, account ownership by the authenticated user,
and transaction date within [startDate, endDate]. -/
def wherePred (userId : String) (accountIdFilter : Option String)
    (startDate endDate : Int) (r : Transaction × Account) : Bool :=
  accountFilterOk accountIdFilter r.1 && decide (r.2.userId = userId) &&
    decide (startDate ≤ r.1.date) && decide (r.1.date ≤ endDate)

/-- The joined rows kept by the shared where-clause. -/
def finRows (userId : String) (accountIdFilter : Option String)
    (startDate endDate : Int) (db : DB) : List (Transaction × Account) :=
  (joinAcc db).filter (wherePred userId accountIdFilter startDate endDate)

/-- The record selected by fetchFinancialData in summary.ts. -/
structure FinData where
  income : Int
  expenses : Int
  remaining : Int
  deriving Repr, DecidableEq

/-- summary.ts fetchFinancialData: over the scoped rows,
income = SUM(CASE WHEN amount >= 0 THEN amount ELSE 0 END),
expenses = SUM(CASE WHEN amount < 0 THEN amount ELSE 0 END),
remaining = SUM(amount).  (SUM of no rows is NULL and mapWith(Number)
turns NULL into 0, matching the empty list sum.) -/
def fetchFinancialData (userId : String) (accountIdFilter : Option String)
    (startDate endDate : Int) (db : DB) : FinData :=
  let rows := finRows userId accountIdFilter startDate endDate db
  { income := (rows.map fun r => if 0 ≤ r.1.amount then r.1.amount else 0).sum
    expenses := (rows.map fun r => if r.1.amount < 0 then r.1.amount else 0).sum
    remaining := (rows.map fun r => r.1.amount).sum }

/-- A per-day aggregate row as produced by the days query in summary.ts
(and, after gap filling, the entries of the returned series; the
"yyyy-MM-dd" formatted date string is modelled by the day index, since
formatting is injective on dates). -/
structure DayRow where
  date : Int
  income : Int
  expenses : Int
  deriving Repr, DecidableEq

/-- The body of the fillMissingDays loop in lib/utils.ts at index i:
look up the date startDate + i among the active days; push the found
income/expenses, or zeroes when the date is absent. -/
def fillDayEntry (activeDays : List DayRow) (startDate : Int) (i : Nat) : DayRow :=
  match activeDays.find? (fun day => decide (day.date = addDays startDate (i : Int))) with
  | some found =>
      { date := addDays startDate (i : Int), income := found.income
        expenses := found.expenses }
  | none =>
      { date := addDays startDate (i : Int), income := 0, expenses := 0 }

/-- lib/utils.ts fillMissingDays: returns [] when there are no active
days at all; otherwise walks i = 0 .. numDays - 1 with
numDays = differenceInDays(endDate, startDate) + 1 and emits one entry
per day of the window. -/
def fillMissingDays (activeDays : List DayRow) (startDate endDate : Int) :
    List DayRow :=
  if activeDays.isEmpty then []
  else
    (List.range (differenceInDays endDate startDate + 1).toNat).map
      (fillDayEntry activeDays startDate)

/-- leftJoin(categories, eq(transactions.categoryId, categories.id))
followed by groupBy(categories.name): the grouping key of a joined row
is the matching category's name, or none when the transaction has no
matching category (the row's categories.name is NULL).  categories.id
is the table's primary key, so at most one category matches. -/
def rowCatName (db : DB) (t : Transaction) : Option String :=
  match t.categoryId with
  | none => none
  | some cid => (db.categories.find? fun c => decide (c.id = cid)).map fun c => c.name

/-- COALESCE(categories.name, 'Uncategorized'). -/
def coalesceName (k : Option String) : String := k.getD "Uncategorized"

/-- The rows kept by the where-clause of the topCategories query: the
summary scope plus lt(transactions.amount, 0) (only expenses). -/
def expenseRows (userId : String) (accountIdFilter : Option String)
    (startDate endDate : Int) (db : DB) : List (Transaction × Account) :=
  (finRows userId accountIdFilter startDate endDate db).filter fun r =>
    decide (r.1.amount < 0)

/-- The distinct grouping keys produced by GROUP BY categories.name. -/
def catKeys (userId : String) (accountIdFilter : Option String)
    (startDate endDate : Int) (db : DB) : List (Option String) :=
  ((expenseRows userId accountIdFilter startDate endDate db).map fun r =>
    rowCatName db r.1).dedup

/-- SUM(ABS(transactions.amount)) within the group of key k. -/
def catValue (userId : String) (accountIdFilter : Option String)
    (startDate endDate : Int) (db : DB) (k : Option String) : Int :=
  (((expenseRows userId accountIdFilter startDate endDate db).filter fun r =>
    decide (rowCatName db r.1 = k)).map fun r => |r.1.amount|).sum

/-- One row of the topCategories result: the coalesced name and the
group's absolute-value total. -/
structure CatRow where
  name : String
  value : Int
  deriving Repr, DecidableEq

/-- ORDER BY SUM(ABS(amount)) DESC as a relation on result rows. -/
def catGE (a b : CatRow) : Prop := b.value ≤ a.value

instance : DecidableRel catGE := fun a b => inferInstanceAs (Decidable (b.value ≤ a.value))

instance : IsTotal CatRow catGE := ⟨fun a b => le_total b.value a.value⟩

instance : IsTrans CatRow catGE := ⟨fun _ _ _ hab hbc => le_trans hbc hab⟩

/-- The topCategories query of summary.ts: group the expense rows by
category name, coalesce the NULL key to 'Uncategorized', sum absolute
amounts per group, order descending by that sum, and keep the first 4
rows (.limit(4)). -/
def topCategories (userId : String) (accountIdFilter : Option String)
    (startDate endDate : Int) (db : DB) : List CatRow :=
  (List.insertionSort catGE
    ((catKeys userId accountIdFilter startDate endDate db).map fun k =>
      { name := coalesceName k
        value := catValue userId accountIdFilter startDate endDate db k })).take 4

/-- app/api/categories.ts GET /: list the caller's categories,
projected to id and name. -/
def categoriesList (user : Option String) (db : DB) :
    ApiResult (List (String × String)) :=
  match user with
  | none => .error (401, "Unauthorized.")
  | some u =>
      .ok ((db.categories.filter fun c => decide (c.userId = u)).map fun c =>
        (c.id, c.name))

/-- app/api/categories.ts GET /:id.  The handler checks the missing-id
condition BEFORE the missing-session condition; the select is scoped by
userId and id, and an empty result is reported as 404. -/
def categoriesGetById (user : Option String) (id : Option String) (db : DB) :
    ApiResult (String × String) :=
  match id with
  | none => .error (400, "Missing id.")
  | some i =>
      match user with
      | none => .error (401, "Unauthorized.")
      | some u =>
          match (db.categories.filter fun c =>
              decide (c.userId = u) && decide (c.id = i)).head? with
          | none => .error (404, "Not found.")
          | some c => .ok (c.id, c.name)

/-- app/api/categories.ts POST /: insert a category with a fresh id for
the caller and return it. -/
def categoriesCreate (user : Option String) (nm : String) (newId : String)
    (_db : DB) : ApiResult Category :=
  match user with
  | none => .error (401, "Unauthorized.")
  | some u => .ok { id := newId, name := nm, userId := u }

/-- app/api/categories.ts POST /bulk-delete: delete the caller's
categories among the requested ids, returning the deleted ids. -/
def categoriesBulkDelete (user : Option String) (ids : List String) (db : DB) :
    ApiResult (List String) :=
  match user with
  | none => .error (401, "Unauthorized.")
  | some u =>
      .ok ((db.categories.filter fun c =>
        decide (c.userId = u) && decide (c.id ∈ ids)).map fun c => c.id)

/-- app/api/categories.ts PATCH /:id (id check ordered before the auth
check, like the GET /:id handler). -/
def categoriesPatch (user : Option String) (id : Option String) (nm : String)
    (db : DB) : ApiResult Category :=
  match id with
  | none => .error (400, "Missing id.")
  | some i =>
      match user with
      | none => .error (401, "Unauthorized.")
      | some u =>
          match (db.categories.filter fun c =>
              decide (c.userId = u) && decide (c.id = i)).head? with
          | none => .error (404, "Not found.")
          | some c => .ok { c with name := nm }

/-- app/api/categories.ts DELETE /:id (id check ordered before the auth
check). -/
def categoriesDelete (user : Option String) (id : Option String) (db : DB) :
    ApiResult String :=
  match id with
  | none => .error (400, "Missing id.")
  | some i =>
      match user with
      | none => .error (401, "Unauthorized.")
      | some u =>
          match (db.categories.filter fun c =>
              decide (c.userId = u) && decide (c.id = i)).head? with
          | none => .error (404, "Not found.")
          | some c => .ok c.id

/-- accounts route GET /: list the caller's accounts, projected to id
and name.  The auth check comes first. -/
def accountsList (user : Option String) (db : DB) :
    ApiResult (List (String × String)) :=
  match user with
  | none => .error (401, "Unauthorized")
  | some u =>
      .ok ((db.accounts.filter fun a => decide (a.userId = u)).map fun a =>
        (a.id, a.name))

/-- accounts route GET /:id: auth check first, then missing id, then
the userId-and-id scoped select with 404 on empty. -/
def accountsGetById (user : Option String) (id : Option String) (db : DB) :
    ApiResult (String × String) :=
  match user with
  | none => .error (401, "Unauthorized")
  | some u =>
      match id with
      | none => .error (400, "Missing id")
      | some i =>
          match (db.accounts.filter fun a =>
              decide (a.userId = u) && decide (a.id = i)).head? with
          | none => .error (404, "Not found")
          | some a => .ok (a.id, a.name)

/-- ORDER BY desc(transactions.date) on joined rows. -/
def dateDesc (a b : Transaction × Account) : Prop := b.1.date ≤ a.1.date

instance : DecidableRel dateDesc := fun a b =>
  inferInstanceAs (Decidable (b.1.date ≤ a.1.date))

instance : IsTotal (Transaction × Account) dateDesc :=
  ⟨fun a b => le_total b.1.date a.1.date⟩

instance : IsTrans (Transaction × Account) dateDesc :=
  ⟨fun _ _ _ hab hbc => le_trans hbc hab⟩

/-- transactions route GET /: the same account-ownership join and
where-clause as the summary (finRows), ordered by date descending.
The selected field projection is left on the joined rows. -/
def transactionsList (user : Option String) (accountIdFilter : Option String)
    (startDate endDate : Int) (db : DB) :
    ApiResult (List (Transaction × Account)) :=
  match user with
  | none => .error (401, "Unauthorized")
  | some u =>
      .ok (List.insertionSort dateDesc
        (finRows u accountIdFilter startDate endDate db))

/-- transactions route GET /:id: auth first, then missing id, then the
ownership-scoped join select with 404 on empty. -/
def transactionsGetById (user : Option String) (id : Option String) (db : DB) :
    ApiResult Transaction :=
  match user with
  | none => .error (401, "Unauthorized")
  | some u =>
      match id with
      | none => .error (400, "Missing id")
      | some i =>
          match ((joinAcc db).filter fun r =>
              decide (r.2.userId = u) && decide (r.1.id = i)).head? with
          | none => .error (404, "Not found")
          | some r => .ok r.1

/-- A transaction-create payload (insertTransactionSchema.omit id). -/
structure TxInput where
  amount : Int
  date : Int
  payee : String
  notes : Option String
  accountId : String
  categoryId : Option String
  deriving Repr, DecidableEq

/-- Attach a generated id to a create payload. -/
def mkTx (newId : String) (v : TxInput) : Transaction :=
  { id := newId, amount := v.amount, date := v.date, payee := v.payee
    notes := v.notes, accountId := v.accountId, categoryId := v.categoryId }

/-- values.map(value => (id: createId(), ...value)): the n-th row gets
the n-th generated id. -/
def withFreshIds (gen : Nat → String) : Nat → List TxInput → List Transaction
  | _, [] => []
  | n, v :: vs => mkTx (gen n) v :: withFreshIds gen (n + 1) vs

/-- transactions route POST /bulk-create: auth check, then the distinct
accountIds of the batch are compared against the count of the caller's
accounts among them; on mismatch the handler returns 400 and inserts
nothing, otherwise every row is inserted with a fresh id. -/
def transactionsBulkCreate (user : Option String) (values : List TxInput)
    (gen : Nat → String) (db : DB) : ApiResult (List Transaction) :=
  match user with
  | none => .error (401, "Unauthorized")
  | some u =>
      let accountIds := (values.map fun v => v.accountId).dedup
      let userAccounts := db.accounts.filter fun a =>
        decide (a.userId = u) && decide (a.id ∈ accountIds)
      if userAccounts.length ≠ accountIds.length then
        .error (400, "Invalid account(s)")
      else
        .ok (withFreshIds gen 0 values)

/-- The per-day aggregation of the days query in summary.ts: one row
per distinct transaction date in the scoped rows, ordered ascending,
with income = SUM(CASE WHEN amount >= 0 ...) and expenses =
SUM(CASE WHEN amount < 0 THEN ABS(amount) ...) per date. -/
def daysRows (userId : String) (accountIdFilter : Option String)
    (startDate endDate : Int) (db : DB) : List DayRow :=
  let rows := finRows userId accountIdFilter startDate endDate db
  (List.insertionSort (fun a b : Int => a ≤ b)
      ((rows.map fun r => r.1.date).dedup)).map fun d =>
    { date := d
      income := ((rows.filter fun r => decide (r.1.date = d)).map fun r =>
        if 0 ≤ r.1.amount then r.1.amount else 0).sum
      expenses := ((rows.filter fun r => decide (r.1.date = d)).map fun r =>
        if r.1.amount < 0 then |r.1.amount| else 0).sum }

/-- The json data of the summary GET handler. -/
structure SummaryData where
  remainingAmount : Int
  remainingChange : Rat
  incomeAmount : Int
  incomeChange : Rat
  expensesAmount : Int
  expensesChange : Rat
  categories : List CatRow
  days : List DayRow

/-- summary.ts GET /: auth check first; the from/to query dates arrive
already parsed (Option Int day indices) and default to the trailing
30-day window ending today; both periods are aggregated, percentage
changes computed, the daily series gap-filled, and everything bundled
into one payload. -/
def summaryGet (user : Option String) (fromQ toQ : Option Int)
    (accountIdFilter : Option String) (today : Int) (db : DB) :
    ApiResult SummaryData :=
  match user with
  | none => .error (401, "Unauthorized")
  | some u =>
      let defaultTo := today
      let defaultFrom := subDays defaultTo 30
      let startDate := fromQ.getD defaultFrom
      let endDate := toQ.getD defaultTo
      let currentPeriod := fetchFinancialData u accountIdFilter startDate endDate db
      let lastPeriod := fetchFinancialData u accountIdFilter
        (lastPeriodStart startDate endDate) (lastPeriodEnd startDate endDate) db
      .ok { remainingAmount := currentPeriod.remaining
            remainingChange := calculatePercentageChange
              (currentPeriod.remaining : Rat) (lastPeriod.remaining : Rat)
            incomeAmount := currentPeriod.income
            incomeChange := calculatePercentageChange
              (currentPeriod.income : Rat) (lastPeriod.income : Rat)
            expensesAmount := currentPeriod.expenses
            expensesChange := calculatePercentageChange
              (currentPeriod.expenses : Rat) (lastPeriod.expenses : Rat)
            categories := topCategories u accountIdFilter startDate endDate db
            days := fillMissingDays
              (daysRows u accountIdFilter startDate endDate db) startDate endDate }


/-- The required mapping targets of the CSV import
(requiredOptions in import-table.tsx). -/
def requiredKeys : List String := ["amount", "date", "payee"]

/-- The optional mapping targets (optionalOptions). -/
def optionalKeys : List String := ["notes", "category"]

/-- import-table.tsx getProgress: mid-import it mirrors the submission
progress; otherwise it is 100 exactly when every required key occurs
among the selected column values, else 0.  The selected columns are the
column-index to field-key assignments (a "skip" choice is stored as
none). -/
def getProgress (isImporting : Bool) (progress : Nat)
    (cols : List (Nat × Option String)) : Nat :=
  if isImporting then progress
  else if requiredKeys.all fun k => (cols.map fun p => p.2).contains (some k)
    then 100 else 0

/-- The Continue button's disabled condition:
getProgress() < 100 || isImporting. -/
def continueDisabled (isImporting : Bool) (progress : Nat)
    (cols : List (Nat × Option String)) : Bool :=
  decide (getProgress isImporting progress cols < 100) || isImporting

/-- import-table.tsx getColumnIndex: the column index currently mapped
to the given field key, if any. -/
def getColumnIndex (cols : List (Nat × Option String)) (key : String) :
    Option Nat :=
  (cols.find? fun p => decide (p.2 = some key)).map fun p => p.1

/-- The cell a body row contributes for a field key: the cell of the
mapped column, or "" when the key is unmapped (JS indexes a missing
entry as undefined; here the column index always comes from the
mapping). -/
def mappedField (cols : List (Nat × Option String)) (row : List String)
    (key : String) : String :=
  match getColumnIndex cols key with
  | some i => row.getD i ""
  | none => ""

/-- A transformed row of handleContinue: one string per required and
optional field key. -/
structure MappedRow where
  amount : String
  date : String
  payee : String
  notes : String
  category : String
  deriving Repr, DecidableEq

/-- The per-row body of handleContinue. -/
def mapRow (cols : List (Nat × Option String)) (row : List String) :
    MappedRow :=
  { amount := mappedField cols row "amount"
    date := mappedField cols row "date"
    payee := mappedField cols row "payee"
    notes := mappedField cols row "notes"
    category := mappedField cols row "category" }

/-- import-table.tsx handleContinue: transform every body row through
the column mapping and hand the result to onSubmit. -/
def handleContinue (cols : List (Nat × Option String))
    (body : List (List String)) : List MappedRow :=
  body.map (mapRow cols)

/-- Numeric value of a decimal digit character. -/
def digitVal (c : Char) : Nat := c.toNat - Char.toNat (Char.ofNat 48)

/-- A non-empty all-digit character sequence read as a natural
number. -/
def parseNatDigits (cs : List Char) : Option Nat :=
  if !cs.isEmpty && cs.all Char.isDigit then
    some (cs.foldl (fun n c => n * 10 + digitVal c) 0)
  else none

/-- The decimal separator. -/
def dotChar : Char := Char.ofNat 46

/-- The minus sign. -/
def minusChar : Char := Char.ofNat 45

/-- Split a character sequence at every occurrence of the separator
(the JS string split semantics: n separators yield n + 1 groups). -/
def splitOnChar (sep : Char) : List Char → List (List Char)
  | [] => [[]]
  | c :: cs =>
      let r := splitOnChar sep cs
      if c == sep then [] :: r
      else
        match r with
        | [] => [[c]]
        | h :: t => (c :: h) :: t

/-- The integer-dot-fraction core of a decimal literal, as an exact
rational. -/
def parseDecimalCore (cs : List Char) : Option Rat :=
  match splitOnChar dotChar cs with
  | [intPart] => (parseNatDigits intPart).map fun n => (n : Rat)
  | [intPart, fracPart] =>
      match parseNatDigits intPart, parseNatDigits fracPart with
      | some n, some f =>
          some ((n : Rat) + (f : Rat) / ((10 : Rat) ^ fracPart.length))
      | _, _ => none
  | _ => none

/-- JS parseFloat on a well-formed (optionally negative) decimal
literal, modelled exactly over the rationals; the literals fed by
the CSV flow (such as "25.50") are exactly representable in binary
floating point after scaling, so the float evaluation agrees with the
rational one. -/
def parseFloatLit (s : String) : Option Rat :=
  match s.toList with
  | [] => none
  | c :: rest =>
      if c == minusChar then (parseDecimalCore rest).map fun q => -q
      else parseDecimalCore (c :: rest)

/-- JS Math.round: round half toward positive infinity. -/
def jsRound (q : Rat) : Int := ⌊q + 1 / 2⌋

/-- import-card.tsx onSubmitImport amount step:
Math.round(parseFloat(value.amount) * 1000). -/
def importAmount (s : String) : Option Int :=
  (parseFloatLit s).map fun q => jsRound (q * 1000)

/-- date-fns parse against the fixed pattern
dateFormat = "yyyy-MM-dd HH:mm:ss" of import-card.tsx: the input must
supply the full date AND time portion, character by character;
otherwise date-fns yields an Invalid Date, modelled as none.  A valid
parse carries (year, month, day, hour, minute, second). -/
def parseDateYmdHms (s : String) :
    Option (Nat × Nat × Nat × Nat × Nat × Nat) :=
  match s.toList with
  | [y1, y2, y3, y4, c1, m1, m2, c2, d1, d2, c3, h1, h2, c4, mi1, mi2, c5, s1, s2] =>
      if y1.isDigit ∧ y2.isDigit ∧ y3.isDigit ∧ y4.isDigit ∧
          m1.isDigit ∧ m2.isDigit ∧ d1.isDigit ∧ d2.isDigit ∧
          h1.isDigit ∧ h2.isDigit ∧ mi1.isDigit ∧ mi2.isDigit ∧
          s1.isDigit ∧ s2.isDigit ∧
          c1 = Char.ofNat 45 ∧ c2 = Char.ofNat 45 ∧ c3 = Char.ofNat 32 ∧
          c4 = Char.ofNat 58 ∧ c5 = Char.ofNat 58 then
        some (((digitVal y1 * 10 + digitVal y2) * 10 + digitVal y3) * 10 + digitVal y4,
          digitVal m1 * 10 + digitVal m2,
          digitVal d1 * 10 + digitVal d2,
          digitVal h1 * 10 + digitVal h2,
          digitVal mi1 * 10 + digitVal mi2,
          digitVal s1 * 10 + digitVal s2)
      else none
  | _ => none

/-- The transaction-create payload assembled by onSubmitImport from a
mapped row: amount parsed and rescaled by 1000, date parsed against the
fixed pattern (none = Invalid Date), the remaining fields passed
through. -/
structure TxPayload where
  amount : Option Int
  date : Option (Nat × Nat × Nat × Nat × Nat × Nat)
  payee : String
  notes : String
  category : String
  deriving Repr, DecidableEq

/-- import-card.tsx onSubmitImport, per row. -/
def onSubmitPayload (r : MappedRow) : TxPayload :=
  { amount := importAmount r.amount
    date := parseDateYmdHms r.date
    payee := r.payee
    notes := r.notes
    category := r.category }

end FinDash

namespace FinDash

/-- C2: calculatePercentageChange returns (current - previous) / previous
* 100 whenever previous is non-zero, returns 0 when both previous and
current are zero, returns 100 when previous is zero and current is not,
and in particular maps (previous, current) = (0, 0) to 0, (0, 500)
to 100, (200, 300) to 50 and (200, 100) to -50. -/
theorem calculatePercentageChange_spec (current previous : Rat) :
    (previous ≠ 0 →
      calculatePercentageChange current previous =
        ((current - previous) / previous) * 100) ∧
    calculatePercentageChange 0 0 = 0 ∧
    (current ≠ 0 → calculatePercentageChange current 0 = 100) ∧
    calculatePercentageChange 500 0 = 100 ∧
    calculatePercentageChange 300 200 = 50 ∧
    calculatePercentageChange 100 200 = -50 := by
  refine ⟨fun hp => ?_, ?_, fun hc => ?_, ?_, ?_, ?_⟩
  · simp [calculatePercentageChange, hp]
  · simp [calculatePercentageChange]
  · simp [calculatePercentageChange, hc]
  · norm_num [calculatePercentageChange]
  · norm_num [calculatePercentageChange]
  · norm_num [calculatePercentageChange]

/-- Witness for C2: the general formula at (current, previous) =
(300, 200) and the previous-zero rule at (current, previous) = (500, 0),
obtained by instantiating the main theorem. -/
theorem calculatePercentageChange_spec_witness :
    calculatePercentageChange 300 200 = ((300 - 200) / 200) * 100 ∧
    calculatePercentageChange 500 0 = 100 := by
  refine ⟨(calculatePercentageChange_spec 300 200).1 (by norm_num), ?_⟩
  exact (calculatePercentageChange_spec 500 0).2.2.1 (by norm_num)

/-- C5: the previous window [lastPeriodStart, lastPeriodEnd] spans
exactly as many day indices as [startDate, endDate], ends on the day
immediately before startDate (contiguity), and every day of the
previous window lies strictly before startDate, so the two windows are
disjoint. -/
theorem previousWindow_spec (startDate endDate : Int) :
    lastPeriodEnd startDate endDate - lastPeriodStart startDate endDate =
      endDate - startDate ∧
    lastPeriodEnd startDate endDate + 1 = startDate ∧
    ∀ d : Int, lastPeriodStart startDate endDate ≤ d →
      d ≤ lastPeriodEnd startDate endDate → d < startDate := by
  unfold lastPeriodEnd lastPeriodStart subDays periodLength differenceInDays
  exact ⟨by omega, by omega, fun d hd1 hd2 => by omega⟩

/-- Witness for C5: the concrete current window [10, 19]; its previous
window is [0, 9], and day 9 of the previous window is strictly before
day 10. -/
theorem previousWindow_spec_witness :
    lastPeriodEnd 10 19 - lastPeriodStart 10 19 = 19 - 10 ∧
    lastPeriodEnd 10 19 + 1 = 10 ∧ (9 : Int) < 10 := by
  obtain ⟨h1, h2, h3⟩ := previousWindow_spec 10 19
  exact ⟨h1, h2, h3 9 (by decide) (by decide)⟩

/-- The CASE-WHEN income sum equals the plain sum over the rows with
positive amount (rows with amount exactly 0 contribute 0 either way). -/
theorem incomeSumAux (rows : List (Transaction × Account)) :
    (rows.map fun r => if 0 ≤ r.1.amount then r.1.amount else 0).sum =
      ((rows.filter fun r => decide (0 < r.1.amount)).map fun r => r.1.amount).sum := by
  induction rows with
  | nil => rfl
  | cons x xs ih =>
    simp only [List.map_cons, List.sum_cons, List.filter_cons]
    by_cases h : 0 < x.1.amount
    · simp [h, le_of_lt h, ih]
    · by_cases h0 : 0 ≤ x.1.amount
      · have hx : x.1.amount = 0 := le_antisymm (not_lt.mp h) h0
        simp [h, h0, hx, ih]
      · simp [h, h0, ih]

/-- The CASE-WHEN expenses sum equals the negation of the sum of
absolute values over the rows with negative amount. -/
theorem expensesSumAux (rows : List (Transaction × Account)) :
    (rows.map fun r => if r.1.amount < 0 then r.1.amount else 0).sum =
      -(((rows.filter fun r => decide (r.1.amount < 0)).map fun r => |r.1.amount|).sum) := by
  induction rows with
  | nil => rfl
  | cons x xs ih =>
    simp only [List.map_cons, List.sum_cons, List.filter_cons]
    by_cases h : x.1.amount < 0
    · simp [h, ih, abs_of_neg h]
      ring
    · simp [h, ih]

/-- The two CASE-WHEN sums partition the plain signed sum. -/
theorem remainingSumAux (rows : List (Transaction × Account)) :
    (rows.map fun r => if 0 ≤ r.1.amount then r.1.amount else 0).sum +
      (rows.map fun r => if r.1.amount < 0 then r.1.amount else 0).sum =
      (rows.map fun r => r.1.amount).sum := by
  induction rows with
  | nil => rfl
  | cons x xs ih =>
    simp only [List.map_cons, List.sum_cons]
    by_cases h : 0 ≤ x.1.amount
    · rw [if_pos h, if_neg (not_lt.mpr h)]; omega
    · rw [if_neg h, if_pos (not_le.mp h)]; omega

/-- C1 (amended): over the rows of the query window, the reported
income is the sum of the positive amounts, the reported expenses value
is the signed sum of the negative amounts, i.e. the NEGATION of the sum
of their absolute values (the SQL CASE keeps the negative sign, it does
not take absolute values), and the reported remaining value is the
signed sum of all amounts, which equals income plus the (non-positive)
reported expenses. -/
theorem fetchFinancialData_spec (userId : String)
    (accountIdFilter : Option String) (startDate endDate : Int) (db : DB) :
    (fetchFinancialData userId accountIdFilter startDate endDate db).income =
      (((finRows userId accountIdFilter startDate endDate db).filter fun r =>
        decide (0 < r.1.amount)).map fun r => r.1.amount).sum ∧
    (fetchFinancialData userId accountIdFilter startDate endDate db).expenses =
      -((((finRows userId accountIdFilter startDate endDate db).filter fun r =>
        decide (r.1.amount < 0)).map fun r => |r.1.amount|).sum) ∧
    (fetchFinancialData userId accountIdFilter startDate endDate db).remaining =
      ((finRows userId accountIdFilter startDate endDate db).map fun r =>
        r.1.amount).sum ∧
    (fetchFinancialData userId accountIdFilter startDate endDate db).remaining =
      (fetchFinancialData userId accountIdFilter startDate endDate db).income +
        (fetchFinancialData userId accountIdFilter startDate endDate db).expenses := by
  have h1 := incomeSumAux (finRows userId accountIdFilter startDate endDate db)
  have h2 := expensesSumAux (finRows userId accountIdFilter startDate endDate db)
  have h3 := remainingSumAux (finRows userId accountIdFilter startDate endDate db)
  refine ⟨?_, ?_, rfl, ?_⟩
  · simpa [fetchFinancialData] using h1
  · simpa [fetchFinancialData] using h2
  · simp only [fetchFinancialData]
    omega

/-- A store with one user who owns one account holding a single expense
of 100 minor units on day 5. -/
def dbC1 : DB :=
  { accounts := [{ id := "acc1", name := "Checking", userId := "userA" }]
    categories := []
    transactions := [{ id := "t1", amount := -100, date := 5, payee := "Shop",
                       notes := none, accountId := "acc1", categoryId := none }] }

/-- C1 counterexample: with a single expense transaction of -100 inside
the window, the sum of absolute values of the negative amounts is 100,
but the aggregator reports expenses = -100 (not 100), and the reported
remaining value differs from reported income minus reported expenses
(-100 versus 0 - (-100) = 100). -/
theorem fetchFinancialData_claim_counterexample :
    (fetchFinancialData "userA" none 0 10 dbC1).expenses = -100 ∧
    ((((finRows "userA" none 0 10 dbC1).filter fun r =>
      decide (r.1.amount < 0)).map fun r => |r.1.amount|).sum) = 100 ∧
    (fetchFinancialData "userA" none 0 10 dbC1).expenses ≠ 100 ∧
    (fetchFinancialData "userA" none 0 10 dbC1).remaining ≠
      (fetchFinancialData "userA" none 0 10 dbC1).income -
        (fetchFinancialData "userA" none 0 10 dbC1).expenses := by
  decide

/-- The date pushed at loop index i is always startDate + i. -/
theorem fillDayEntry_date (activeDays : List DayRow) (startDate : Int) (i : Nat) :
    (fillDayEntry activeDays startDate i).date = startDate + i := by
  unfold fillDayEntry
  split <;> simp [addDays]

/-- When no active day carries the date startDate + i, the loop pushes
zero income and zero expenses at index i. -/
theorem fillDayEntry_absent (activeDays : List DayRow) (startDate : Int) (i : Nat)
    (habs : ∀ r ∈ activeDays, r.date ≠ startDate + (i : Int)) :
    (fillDayEntry activeDays startDate i).income = 0 ∧
      (fillDayEntry activeDays startDate i).expenses = 0 := by
  have hf : activeDays.find?
      (fun day => decide (day.date = addDays startDate (i : Int))) = none := by
    apply List.find?_eq_none.mpr
    intro x hx
    simpa [addDays] using habs x hx
  unfold fillDayEntry
  rw [hf]
  exact ⟨rfl, rfl⟩

/-- C3 (amended): when the per-day aggregate list is NON-EMPTY, the
gap-filled series has exactly (differenceInDays endDate startDate + 1)
entries, the i-th entry carries the date startDate + i (so each window
date appears exactly once, in ascending order), and an entry whose date
occurs in no aggregate reports zero income and zero expenses.  (When
the aggregate list is empty the source returns [] instead, see the
counterexample.) -/
theorem fillMissingDays_spec (activeDays : List DayRow) (startDate endDate : Int)
    (hne : activeDays ≠ []) :
    (fillMissingDays activeDays startDate endDate).length =
      (differenceInDays endDate startDate + 1).toNat ∧
    (∀ i (h : i < (fillMissingDays activeDays startDate endDate).length),
      ((fillMissingDays activeDays startDate endDate).get ⟨i, h⟩).date =
        startDate + i) ∧
    (fillMissingDays activeDays startDate endDate).Pairwise
      (fun a b => a.date < b.date) ∧
    ((fillMissingDays activeDays startDate endDate).map fun r => r.date).Nodup ∧
    (∀ i (h : i < (fillMissingDays activeDays startDate endDate).length),
      (∀ r ∈ activeDays, r.date ≠ startDate + (i : Int)) →
      ((fillMissingDays activeDays startDate endDate).get ⟨i, h⟩).income = 0 ∧
      ((fillMissingDays activeDays startDate endDate).get ⟨i, h⟩).expenses = 0) := by
  have hE : activeDays.isEmpty = false := by
    cases activeDays with
    | nil => exact absurd rfl hne
    | cons a t => rfl
  have hfill : fillMissingDays activeDays startDate endDate =
      (List.range (differenceInDays endDate startDate + 1).toNat).map
        (fillDayEntry activeDays startDate) := by
    simp [fillMissingDays, hE]
  rw [hfill]
  refine ⟨by simp, ?_, ?_, ?_, ?_⟩
  · intro i h
    simp [List.get_eq_getElem, List.getElem_map, List.getElem_range,
      fillDayEntry_date]
  · refine List.pairwise_map.mpr ?_
    refine (List.pairwise_lt_range _).imp ?_
    intro a b hab
    simp only [fillDayEntry_date]
    omega
  · rw [List.map_map]
    have hp : ((List.range (differenceInDays endDate startDate + 1).toNat).map
        (fun i => (fillDayEntry activeDays startDate i).date)).Pairwise (· ≠ ·) := by
      refine List.pairwise_map.mpr ?_
      refine (List.pairwise_lt_range _).imp ?_
      intro a b hab
      simp only [fillDayEntry_date]
      omega
    exact hp
  · intro i h habs
    have hget : ((List.range (differenceInDays endDate startDate + 1).toNat).map
        (fillDayEntry activeDays startDate)).get ⟨i, h⟩ =
        fillDayEntry activeDays startDate i := by
      simp [List.get_eq_getElem, List.getElem_map, List.getElem_range]
    rw [hget]
    exact fillDayEntry_absent activeDays startDate i habs

/-- C3 counterexample: the 5-day window [0, 4] with NO transacted days
at all: fillMissingDays returns the empty series, not 5 zero entries. -/
theorem fillMissingDays_claim_counterexample :
    fillMissingDays [] 0 4 = [] ∧
    (differenceInDays 4 0 + 1).toNat = 5 ∧
    (fillMissingDays [] 0 4).length ≠ 5 := by
  decide

/-- Witness for C3: the 3-day window [0, 2] with a single transacted
day at date 1; the theorem yields a 3-entry series, and the series is
concretely the gap-filled [day 0 zeroed, day 1, day 2 zeroed]. -/
theorem fillMissingDays_spec_witness :
    (fillMissingDays [⟨1, 7, 3⟩] 0 2).length =
      (differenceInDays 2 0 + 1).toNat ∧
    fillMissingDays [⟨1, 7, 3⟩] 0 2 =
      [⟨0, 0, 0⟩, ⟨1, 7, 3⟩, ⟨2, 0, 0⟩] := by
  refine ⟨(fillMissingDays_spec [⟨1, 7, 3⟩] 0 2 (by decide)).1, by decide⟩

/-- C4: the category breakdown has at most 4 entries, is sorted
descending by total, every entry is the per-name group total of
absolute amounts over the expense-only rows (with the missing-category
key rendered as 'Uncategorized' by the coalescing), and every row that
feeds the breakdown is an expense (amount < 0). -/
theorem topCategories_spec (userId : String) (accountIdFilter : Option String)
    (startDate endDate : Int) (db : DB) :
    (topCategories userId accountIdFilter startDate endDate db).length ≤ 4 ∧
    (topCategories userId accountIdFilter startDate endDate db).Pairwise
      (fun a b => b.value ≤ a.value) ∧
    (∀ x ∈ topCategories userId accountIdFilter startDate endDate db,
      ∃ k ∈ (expenseRows userId accountIdFilter startDate endDate db).map
          (fun r => rowCatName db r.1),
        x.name = coalesceName k ∧
        x.value = (((expenseRows userId accountIdFilter startDate endDate
          db).filter fun r => decide (rowCatName db r.1 = k)).map fun r =>
            |r.1.amount|).sum) ∧
    coalesceName none = "Uncategorized" ∧
    (∀ r ∈ expenseRows userId accountIdFilter startDate endDate db,
      r.1.amount < 0) := by
  refine ⟨?_, ?_, ?_, rfl, ?_⟩
  · exact List.length_take_le 4 _
  · have hs : (List.insertionSort catGE
        ((catKeys userId accountIdFilter startDate endDate db).map fun k =>
          { name := coalesceName k
            value := catValue userId accountIdFilter startDate endDate db k
            : CatRow })).Pairwise catGE :=
      List.sorted_insertionSort catGE _
    exact List.Pairwise.sublist (List.take_sublist 4 _) hs
  · intro x hx
    have hx1 : x ∈ List.insertionSort catGE
        ((catKeys userId accountIdFilter startDate endDate db).map fun k =>
          { name := coalesceName k
            value := catValue userId accountIdFilter startDate endDate db k
            : CatRow }) := List.mem_of_mem_take hx
    have hx2 : x ∈ (catKeys userId accountIdFilter startDate endDate db).map
        fun k => { name := coalesceName k
                   value := catValue userId accountIdFilter startDate endDate db k
                   : CatRow } :=
      (List.perm_insertionSort catGE _).mem_iff.mp hx1
    obtain ⟨k, hk, hxk⟩ := List.mem_map.mp hx2
    refine ⟨k, ?_, ?_, ?_⟩
    · exact List.mem_dedup.mp hk
    · rw [← hxk]
    · rw [← hxk]
      rfl
  · intro r hr
    have := List.of_mem_filter hr
    simpa using this

/-- Two expense transactions for user A, one in the 'Food' category and
one uncategorized, plus one income transaction, all inside [0, 10]. -/
def txFood : Transaction :=
  { id := "t1", amount := -500, date := 5, payee := "Grocer", notes := none
    accountId := "acc1", categoryId := some "cat1" }

/-- The uncategorized expense transaction of the C4 example store. -/
def txNoCat : Transaction :=
  { id := "t2", amount := -200, date := 6, payee := "Kiosk", notes := none
    accountId := "acc1", categoryId := none }

/-- The account owning the C4 example transactions. -/
def accA : Account := { id := "acc1", name := "Checking", userId := "userA" }

/-- The example store for the category breakdown. -/
def dbC4 : DB :=
  { accounts := [accA]
    categories := [{ id := "cat1", name := "Food", userId := "userA" }]
    transactions := [txFood, txNoCat,
      { id := "t3", amount := 300, date := 7, payee := "Employer", notes := none
        accountId := "acc1", categoryId := none }] }

/-- Witness for C4: on the example store the breakdown is concretely
[Food 500, Uncategorized 200]; the bound and the expense-only fact are
read off the main theorem, the expense-only fact at the concrete joined
row (txFood, accA). -/
theorem topCategories_spec_witness :
    txFood.amount < 0 ∧
    (topCategories "userA" none 0 10 dbC4).length ≤ 4 ∧
    topCategories "userA" none 0 10 dbC4 =
      [{ name := "Food", value := 500 }, { name := "Uncategorized", value := 200 }] := by
  refine ⟨(topCategories_spec "userA" none 0 10 dbC4).2.2.2.2 (txFood, accA)
    (by decide), (topCategories_spec "userA" none 0 10 dbC4).1, by decide⟩

/-- The empty relational store. -/
def dbEmpty : DB := { accounts := [], categories := [], transactions := [] }

/-- C9 (amended): every handler rejects a request with no authenticated
session without consulting the database (the response is the same for
any two stores), and the rejection is an error with status 401 — except
the categories get/patch/delete-by-id handlers, which test the
missing-id condition first and answer 400 when the id parameter is also
absent. -/
theorem unauthenticated_reject_spec (db db2 : DB) (id : Option String)
    (ids : List String) (nm newId : String) (accF : Option String)
    (fromQ toQ : Option Int) (today s e : Int) (values : List TxInput)
    (gen : Nat → String) :
    accountsList none db = .error (401, "Unauthorized") ∧
    accountsList none db = accountsList none db2 ∧
    accountsGetById none id db = .error (401, "Unauthorized") ∧
    accountsGetById none id db = accountsGetById none id db2 ∧
    transactionsList none accF s e db = .error (401, "Unauthorized") ∧
    transactionsList none accF s e db = transactionsList none accF s e db2 ∧
    transactionsGetById none id db = .error (401, "Unauthorized") ∧
    transactionsGetById none id db = transactionsGetById none id db2 ∧
    transactionsBulkCreate none values gen db = .error (401, "Unauthorized") ∧
    transactionsBulkCreate none values gen db =
      transactionsBulkCreate none values gen db2 ∧
    summaryGet none fromQ toQ accF today db = .error (401, "Unauthorized") ∧
    summaryGet none fromQ toQ accF today db =
      summaryGet none fromQ toQ accF today db2 ∧
    categoriesList none db = .error (401, "Unauthorized.") ∧
    categoriesList none db = categoriesList none db2 ∧
    categoriesCreate none nm newId db = .error (401, "Unauthorized.") ∧
    categoriesCreate none nm newId db = categoriesCreate none nm newId db2 ∧
    categoriesBulkDelete none ids db = .error (401, "Unauthorized.") ∧
    categoriesBulkDelete none ids db = categoriesBulkDelete none ids db2 ∧
    categoriesGetById none id db =
      .error (if id.isNone then (400, "Missing id.") else (401, "Unauthorized.")) ∧
    categoriesGetById none id db = categoriesGetById none id db2 ∧
    categoriesPatch none id nm db =
      .error (if id.isNone then (400, "Missing id.") else (401, "Unauthorized.")) ∧
    categoriesPatch none id nm db = categoriesPatch none id nm db2 ∧
    categoriesDelete none id db =
      .error (if id.isNone then (400, "Missing id.") else (401, "Unauthorized.")) ∧
    categoriesDelete none id db = categoriesDelete none id db2 := by
  cases id <;>
    exact ⟨rfl, rfl, rfl, rfl, rfl, rfl, rfl, rfl, rfl, rfl, rfl, rfl, rfl,
      rfl, rfl, rfl, rfl, rfl, rfl, rfl, rfl, rfl, rfl, rfl⟩

/-- C9 counterexample: the categories GET /:id handler, called with no
session and no id, answers status 400 (Missing id.), not 401. -/
theorem unauthenticated_reject_claim_counterexample :
    respStatus (categoriesGetById none none dbEmpty) = 400 ∧
    respStatus (categoriesGetById none none dbEmpty) ≠ 401 := by
  decide

/-- A joined row dropped by the join-and-ownership restriction yields
nothing after the where-clause: if no account row matches the
transaction's accountId with the requesting user's userId, the inner
join followed by the ownership condition filters everything out. -/
theorem joinOne_wherePred_unowned (u : String) (accF : Option String)
    (s e : Int) (accountRows : List Account) (t : Transaction)
    (h : (accountRows.any fun a =>
      decide (a.id = t.accountId) && decide (a.userId = u)) = false) :
    (joinOne accountRows t).filter (wherePred u accF s e) = [] := by
  rw [List.filter_eq_nil_iff]
  intro r hr
  unfold joinOne at hr
  obtain ⟨a, ha, rfl⟩ := List.mem_map.mp hr
  have ha1 : a ∈ accountRows := List.mem_of_mem_filter ha
  have ha2 : t.accountId = a.id := by
    have := List.of_mem_filter ha
    simpa using this
  rw [List.any_eq_false] at h
  have h3 := h a ha1
  simp only [Bool.and_eq_true, decide_eq_true_eq, not_and] at h3
  have hne : a.userId ≠ u := h3 ha2.symm
  simp [wherePred, hne]

/-- Removing the transactions that do not belong to any of the user's
accounts does not change the scoped row set. -/
theorem finRows_restrict_aux (u : String) (accF : Option String) (s e : Int)
    (accountRows : List Account) (ts : List Transaction) :
    ((ts.filter fun t => accountRows.any fun a =>
        decide (a.id = t.accountId) && decide (a.userId = u)).flatMap
      (joinOne accountRows)).filter (wherePred u accF s e) =
    (ts.flatMap (joinOne accountRows)).filter (wherePred u accF s e) := by
  induction ts with
  | nil => rfl
  | cons t ts ih =>
    by_cases h : (accountRows.any fun a =>
        decide (a.id = t.accountId) && decide (a.userId = u)) = true
    · have hcons : (t :: ts).filter (fun t => accountRows.any fun a =>
          decide (a.id = t.accountId) && decide (a.userId = u)) =
          t :: ts.filter (fun t => accountRows.any fun a =>
            decide (a.id = t.accountId) && decide (a.userId = u)) := by
        simp [List.filter_cons, h]
      rw [hcons, List.flatMap_cons, List.flatMap_cons,
        List.filter_append, List.filter_append, ih]
    · have hf := eq_false_of_ne_true h
      have hcons : (t :: ts).filter (fun t => accountRows.any fun a =>
          decide (a.id = t.accountId) && decide (a.userId = u)) =
          ts.filter (fun t => accountRows.any fun a =>
            decide (a.id = t.accountId) && decide (a.userId = u)) := by
        simp [List.filter_cons, hf]
      rw [hcons, ih, List.flatMap_cons, List.filter_append,
        joinOne_wherePred_unowned u accF s e accountRows t hf,
        List.nil_append]

/-- finRows only draws from transactions reachable through the caller's
own accounts. -/
theorem finRows_restrict (u : String) (accF : Option String) (s e : Int)
    (db : DB) :
    finRows u accF s e
      { db with transactions := db.transactions.filter fun t =>
          db.accounts.any fun a =>
            decide (a.id = t.accountId) && decide (a.userId = u) } =
      finRows u accF s e db :=
  finRows_restrict_aux u accF s e db.accounts db.transactions

/-- Every scoped row's joined account belongs to the requesting user. -/
theorem finRows_owner (u : String) (accF : Option String) (s e : Int)
    (db : DB) : ∀ r ∈ finRows u accF s e db, r.2.userId = u := by
  intro r hr
  have := List.of_mem_filter hr
  simp only [wherePred, Bool.and_eq_true, decide_eq_true_eq] at this
  exact this.1.1.2

/-- C8: list responses only contain records filtered to the caller's
userId; every row of the transactions list and of the summary scope is
joined to an account owned by the caller; a get-by-id for a category
whose id belongs to user B is answered 404 for caller A; and the
financial aggregation is unchanged when all transactions not reachable
through A's accounts are removed from the store. -/
theorem ownership_isolation (userA userB : String) (hAB : userA ≠ userB)
    (db : DB) (accF : Option String) (s e : Int) (i : String)
    (hB : ∀ c ∈ db.categories, c.id = i → c.userId = userB) :
    (∀ l, categoriesList (some userA) db = .ok l →
      ∀ p ∈ l, ∃ c ∈ db.categories, c.userId = userA ∧ p = (c.id, c.name)) ∧
    (∀ l, accountsList (some userA) db = .ok l →
      ∀ p ∈ l, ∃ a ∈ db.accounts, a.userId = userA ∧ p = (a.id, a.name)) ∧
    (∀ l, transactionsList (some userA) accF s e db = .ok l →
      ∀ r ∈ l, r.2.userId = userA) ∧
    (∀ r ∈ finRows userA accF s e db, r.2.userId = userA) ∧
    categoriesGetById (some userA) (some i) db = .error (404, "Not found.") ∧
    fetchFinancialData userA accF s e
      { db with transactions := db.transactions.filter fun t =>
          db.accounts.any fun a =>
            decide (a.id = t.accountId) && decide (a.userId = userA) } =
      fetchFinancialData userA accF s e db := by
  refine ⟨?_, ?_, ?_, finRows_owner userA accF s e db, ?_, ?_⟩
  · intro l hl p hp
    simp only [categoriesList, Except.ok.injEq] at hl
    subst hl
    obtain ⟨c, hc, rfl⟩ := List.mem_map.mp hp
    have hc1 := List.mem_of_mem_filter hc
    have hc2 := List.of_mem_filter hc
    simp only [decide_eq_true_eq] at hc2
    exact ⟨c, hc1, hc2, rfl⟩
  · intro l hl p hp
    simp only [accountsList, Except.ok.injEq] at hl
    subst hl
    obtain ⟨a, ha, rfl⟩ := List.mem_map.mp hp
    have ha1 := List.mem_of_mem_filter ha
    have ha2 := List.of_mem_filter ha
    simp only [decide_eq_true_eq] at ha2
    exact ⟨a, ha1, ha2, rfl⟩
  · intro l hl r hr
    simp only [transactionsList, Except.ok.injEq] at hl
    subst hl
    exact finRows_owner userA accF s e db r
      ((List.perm_insertionSort dateDesc _).mem_iff.mp hr)
  · have hfil : (db.categories.filter fun c =>
        decide (c.userId = userA) && decide (c.id = i)) = [] := by
      rw [List.filter_eq_nil_iff]
      intro c hc
      simp only [Bool.and_eq_true, decide_eq_true_eq, not_and]
      intro hu hi
      exact hAB (hu.symm.trans (hB c hc hi))
    simp [categoriesGetById, hfil]
  · simp only [fetchFinancialData, finRows_restrict]

/-- A store holding only user B's account, category with id catB, and
one of B's transactions. -/
def dbC8 : DB :=
  { accounts := [{ id := "accB", name := "Bchecking", userId := "userB" }]
    categories := [{ id := "catB", name := "Bfood", userId := "userB" }]
    transactions := [{ id := "tB", amount := -50, date := 3, payee := "Bshop",
                       notes := none, accountId := "accB", categoryId := some "catB" }] }

/-- Witness for C8: authenticated user A requesting B's category catB
gets 404 Not found. -/
theorem ownership_isolation_witness :
    categoriesGetById (some "userA") (some "catB") dbC8 =
      .error (404, "Not found.") :=
  (ownership_isolation "userA" "userB" (by decide) dbC8 none 0 10 "catB"
    (by decide)).2.2.2.2.1

/-- Length-preservation of the id-attaching map of bulk-create. -/
theorem withFreshIds_length (gen : Nat → String) (k : Nat) (vs : List TxInput) :
    (withFreshIds gen k vs).length = vs.length := by
  induction vs generalizing k with
  | nil => rfl
  | cons v vs ih => simp [withFreshIds, ih]

/-- The n-th inserted row of bulk-create is the n-th payload with the
(k + n)-th generated id. -/
theorem withFreshIds_getElem (gen : Nat → String) (k n : Nat) (vs : List TxInput) :
    (withFreshIds gen k vs)[n]? = vs[n]?.map fun v => mkTx (gen (k + n)) v := by
  induction vs generalizing k n with
  | nil => simp [withFreshIds]
  | cons v vs ih =>
    cases n with
    | zero => simp [withFreshIds]
    | succ m =>
      have harith : k + (m + 1) = (k + 1) + m := by omega
      simp [withFreshIds, ih, harith]

/-- With account ids unique (the primary key), the drizzle count
comparison of bulk-create is exactly the test that every requested
accountId is one of the caller's accounts. -/
theorem owned_length_eq_iff (u : String) (accountRows : List Account)
    (ids : List String) (hacc : (accountRows.map fun a => a.id).Nodup)
    (hnd : ids.Nodup) :
    (accountRows.filter fun a =>
      decide (a.userId = u) && decide (a.id ∈ ids)).length = ids.length ↔
      ∀ i0 ∈ ids, ∃ a ∈ accountRows, a.id = i0 ∧ a.userId = u := by
  set owned := accountRows.filter fun a =>
    decide (a.userId = u) && decide (a.id ∈ ids) with howned
  have hsub : (owned.map fun a => a.id) ⊆ ids := by
    intro x hx
    obtain ⟨a, ha, rfl⟩ := List.mem_map.mp hx
    have := List.of_mem_filter ha
    simp only [Bool.and_eq_true, decide_eq_true_eq] at this
    exact this.2
  have hndo : (owned.map fun a => a.id).Nodup :=
    hacc.sublist ((List.filter_sublist accountRows).map fun a => a.id)
  have hsp : List.Subperm (owned.map fun a => a.id) ids := hndo.subperm hsub
  have hlen : owned.length = (owned.map fun a => a.id).length :=
    (List.length_map _ _).symm
  constructor
  · intro heq i0 hi0
    have hperm : List.Perm (owned.map fun a => a.id) ids :=
      hsp.perm_of_length_le (le_of_eq (by rw [← hlen, heq]))
    have : i0 ∈ owned.map fun a => a.id := hperm.mem_iff.mpr hi0
    obtain ⟨a, ha, rfl⟩ := List.mem_map.mp this
    have ha1 := List.mem_of_mem_filter ha
    have ha2 := List.of_mem_filter ha
    simp only [Bool.and_eq_true, decide_eq_true_eq] at ha2
    exact ⟨a, ha1, rfl, ha2.1⟩
  · intro hall
    have hsup : ids ⊆ (owned.map fun a => a.id) := by
      intro i0 hi0
      obtain ⟨a, ha, haid, hau⟩ := hall i0 hi0
      have hmem : a ∈ owned := by
        rw [howned]
        apply List.mem_filter.mpr
        refine ⟨ha, ?_⟩
        simp only [Bool.and_eq_true, decide_eq_true_eq]
        exact ⟨hau, haid ▸ hi0⟩
      exact List.mem_map.mpr ⟨a, hmem, haid⟩
    have hsp2 : List.Subperm ids (owned.map fun a => a.id) := hnd.subperm hsup
    have h1 : (owned.map fun a => a.id).length ≤ ids.length := hsp.length_le
    have h2 : ids.length ≤ (owned.map fun a => a.id).length := hsp2.length_le
    omega

/-- C10: with unique account ids, bulk-create is atomic in ownership:
if some payload references an accountId not owned by the caller the
handler answers 400 and inserts nothing; otherwise it inserts exactly
the batch, the n-th row carrying the n-th freshly generated id. -/
theorem transactionsBulkCreate_spec (u : String) (values : List TxInput)
    (gen : Nat → String) (db : DB)
    (hacc : (db.accounts.map fun a => a.id).Nodup) :
    ((∃ v ∈ values, ∀ a ∈ db.accounts, ¬(a.id = v.accountId ∧ a.userId = u)) →
      transactionsBulkCreate (some u) values gen db =
        .error (400, "Invalid account(s)")) ∧
    ((∀ v ∈ values, ∃ a ∈ db.accounts, a.id = v.accountId ∧ a.userId = u) →
      transactionsBulkCreate (some u) values gen db =
        .ok (withFreshIds gen 0 values)) ∧
    (withFreshIds gen 0 values).length = values.length ∧
    (∀ n, (withFreshIds gen 0 values)[n]? =
      values[n]?.map fun v => mkTx (gen n) v) := by
  have hIds : ∀ i0, i0 ∈ (values.map fun v => v.accountId).dedup ↔
      ∃ v ∈ values, v.accountId = i0 := by
    intro i0
    rw [List.mem_dedup]
    simp [List.mem_map]
  have hiff := owned_length_eq_iff u db.accounts
    ((values.map fun v => v.accountId).dedup) hacc (List.nodup_dedup _)
  have hEquiv : (∀ i0 ∈ (values.map fun v => v.accountId).dedup,
      ∃ a ∈ db.accounts, a.id = i0 ∧ a.userId = u) ↔
      (∀ v ∈ values, ∃ a ∈ db.accounts, a.id = v.accountId ∧ a.userId = u) := by
    constructor
    · intro h v hv
      exact h v.accountId ((hIds v.accountId).mpr ⟨v, hv, rfl⟩)
    · intro h i0 hi0
      obtain ⟨v, hv, rfl⟩ := (hIds i0).mp hi0
      exact h v hv
  refine ⟨?_, ?_, withFreshIds_length gen 0 values, ?_⟩
  · rintro ⟨v, hv, hnone⟩
    have hnot : ¬ ∀ v2 ∈ values, ∃ a ∈ db.accounts,
        a.id = v2.accountId ∧ a.userId = u := by
      intro hall
      obtain ⟨a, ha, h1, h2⟩ := hall v hv
      exact hnone a ha ⟨h1, h2⟩
    have hne : (db.accounts.filter fun a => decide (a.userId = u) &&
        decide (a.id ∈ (values.map fun v => v.accountId).dedup)).length ≠
        ((values.map fun v => v.accountId).dedup).length := by
      intro heq
      exact hnot (hEquiv.mp (hiff.mp heq))
    simp only [transactionsBulkCreate]
    rw [if_pos hne]
  · intro hall
    have heq := hiff.mpr (hEquiv.mpr hall)
    simp only [transactionsBulkCreate]
    rw [if_neg (not_ne_iff.mpr heq)]
  · intro n
    have := withFreshIds_getElem gen 0 n values
    simpa using this

/-- The generated-id stream used in the bulk-create example. -/
def genEx (n : Nat) : String := "tx" ++ toString n

/-- A bulk-create payload referencing the example account acc1. -/
def txIn1 : TxInput :=
  { amount := -100, date := 5, payee := "Shop", notes := none
    accountId := "acc1", categoryId := none }

/-- A bulk-create payload referencing a foreign account id. -/
def txInBad : TxInput := { txIn1 with accountId := "accZ" }

/-- Witness for C10: on the store dbC1 (whose only account acc1 belongs
to userA), a batch referencing acc1 is inserted whole, and a batch
referencing the foreign account accZ is rejected with 400. -/
theorem transactionsBulkCreate_spec_witness :
    transactionsBulkCreate (some "userA") [txIn1] genEx dbC1 =
      .ok (withFreshIds genEx 0 [txIn1]) ∧
    transactionsBulkCreate (some "userA") [txInBad] genEx dbC1 =
      .error (400, "Invalid account(s)") :=
  ⟨(transactionsBulkCreate_spec "userA" [txIn1] genEx dbC1 (by decide)).2.1
      (by decide),
    (transactionsBulkCreate_spec "userA" [txInBad] genEx dbC1 (by decide)).1
      (by decide)⟩


/-- C7: outside an import run, the displayed progress is 100 exactly
when every required field (amount, date, payee) is mapped to some
column, otherwise 0, and the Continue action is disabled exactly when
the progress is below 100. -/
theorem getProgress_spec (progress : Nat) (cols : List (Nat × Option String)) :
    (getProgress false progress cols = 100 ↔
      ∀ k ∈ requiredKeys, ∃ p ∈ cols, p.2 = some k) ∧
    ((¬ ∀ k ∈ requiredKeys, ∃ p ∈ cols, p.2 = some k) →
      getProgress false progress cols = 0) ∧
    (continueDisabled false progress cols = true ↔
      getProgress false progress cols < 100) := by
  have hkey : (requiredKeys.all fun k =>
      (cols.map fun p => p.2).contains (some k)) = true ↔
      ∀ k ∈ requiredKeys, ∃ p ∈ cols, p.2 = some k := by
    simp [List.all_eq_true, List.mem_map]
  have hrfl : getProgress false progress cols =
      if (requiredKeys.all fun k =>
        (cols.map fun p => p.2).contains (some k)) = true
      then 100 else 0 := rfl
  by_cases hb : (requiredKeys.all fun k =>
      (cols.map fun p => p.2).contains (some k)) = true
  · have h100 : getProgress false progress cols = 100 := by
      rw [hrfl, if_pos hb]
    refine ⟨Iff.intro (fun _ => hkey.mp hb) (fun _ => h100), ?_, ?_⟩
    · intro hnot
      exact absurd (hkey.mp hb) hnot
    · simp [continueDisabled, h100]
  · have hb2 : (requiredKeys.all fun k =>
        (cols.map fun p => p.2).contains (some k)) = false :=
      eq_false_of_ne_true hb
    have hnot : ¬ ∀ k ∈ requiredKeys, ∃ p ∈ cols, p.2 = some k :=
      fun h => hb (hkey.mpr h)
    have h0 : getProgress false progress cols = 0 := by
      rw [hrfl, hb2]
      simp
    refine ⟨?_, fun _ => h0, ?_⟩
    · constructor
      · intro h
        exact absurd (h0.symm.trans h) (by decide)
      · intro hr
        exact absurd hr hnot
    · simp [continueDisabled, h0]

/-- Witness for C7: the full mapping (column 0 to date, column 1 to
amount, column 2 to payee) reaches progress 100, via the main
theorem's equivalence. -/
theorem getProgress_spec_witness :
    getProgress false 0
      [(0, some "date"), (1, some "amount"), (2, some "payee")] = 100 :=
  (getProgress_spec 0
    [(0, some "date"), (1, some "amount"), (2, some "payee")]).1.mpr (by decide)

/-- The mapped row produced by handleContinue in the spec's CSV import
example. -/
def exampleRow : MappedRow :=
  { amount := "25.50", date := "2024-01-01", payee := "Coffee Shop"
    notes := "", category := "" }

/-- C6: the import pipeline evaluated at the spec's example: header
["Date","Amount","Payee"], one data row, columns mapped 0 to date, 1 to
amount, 2 to payee.  The payload's amount is 25500 and its payee is
"Coffee Shop" as the claim states, but the date cell "2024-01-01" does
NOT parse to the calendar date 2024-01-01: the fixed input pattern
"yyyy-MM-dd HH:mm:ss" demands a time component, so date-fns produces an
Invalid Date (modelled none); a full-pattern string such as
"2024-01-01 00:00:00" would have parsed. -/
theorem importExample_eval :
    handleContinue [(0, some "date"), (1, some "amount"), (2, some "payee")]
        [["2024-01-01", "25.50", "Coffee Shop"]] = [exampleRow] ∧
    (onSubmitPayload exampleRow).amount = some 25500 ∧
    (onSubmitPayload exampleRow).payee = "Coffee Shop" ∧
    (onSubmitPayload exampleRow).date = none ∧
    parseDateYmdHms "2024-01-01 00:00:00" = some (2024, 1, 1, 0, 0, 0) := by
  have hamount : importAmount "25.50" = some 25500 := by
    have hred : importAmount "25.50" =
        some (jsRound ((((25 : Nat) : Rat) +
          ((50 : Nat) : Rat) / ((10 : Rat) ^ (2 : Nat))) * 1000)) := rfl
    have hval : ((((25 : Nat) : Rat) +
        ((50 : Nat) : Rat) / ((10 : Rat) ^ (2 : Nat))) * 1000) = 25500 := by
      push_cast
      norm_num
    have hfloor : jsRound (25500 : Rat) = 25500 := by
      unfold jsRound
      rw [Int.floor_eq_iff]
      constructor
      · push_cast
        norm_num
      · push_cast
        norm_num
    rw [hred, hval, hfloor]
  refine ⟨by decide, ?_, by decide, by decide, by decide⟩
  show importAmount "25.50" = some 25500
  exact hamount

end FinDash
